import Mathlib

/-!
Verification of the ocrbyme OCR pipeline (PDF → Markdown via a vision model).

Each Python function relevant to the frozen claims is shallowly embedded as an
executable Lean definition; external effects (the remote API, PIL, PyMuPDF,
the filesystem clock) are passed in as explicit oracles or recorded as data.
Python `str` values manipulated by index are embedded as `List Char`
(Python indexes code points); machine-level details that the source never
relies on (unicode classes beyond ASCII in `\w`, `int()` and `str.strip`)
are modelled on the ASCII fragment the program actually feeds them.
-/

namespace OCRByMe

/-! ### Error taxonomy (models/types.py)

`RateLimitError` is a subclass of `APIError` in the source; the constructor
`rateLimitError` keeps its `retry_after` payload, and the `isAPIError`
discriminator below reflects the `isinstance` relation. -/

inductive OCRError where
  | pdfProcessingError (message : String)
  | apiError (message : String) (statusCode : Option Int)
  | rateLimitError (message : String) (retryAfter : Option Int)
  | configurationError (message : String)
  | markdownGenerationError (message : String)
  deriving DecidableEq, Repr

def OCRError.isConfigurationError : OCRError → Bool
  | .configurationError _ => true
  | _ => false

def OCRError.isPDFProcessingError : OCRError → Bool
  | .pdfProcessingError _ => true
  | _ => false

/-! ### utils/retry.py — `retry_on_error`

The wrapped function is modelled as an oracle `f : Nat → Except ε ρ` giving
the outcome of its k-th invocation (0-based).  `retryable e` models
`isinstance(e, exceptions)`; `rateRetryAfter e` models
`isinstance(e, RateLimitError) and e.retry_after` (`none` where the
`isinstance` or the truthiness test fails, so `retry_after = 0` maps to
`none`).  Delays are tracked exactly (floats 1.0/2.0 are dyadic, hence
rationals); `time.sleep` is recorded in the returned trace.  The result
also carries the number of calls made to `f`. -/

inductive PyOutcome (ε ρ : Type) where
  | ok (v : ρ)
  | raised (e : ε)
  | runtimeError (message : String)
  deriving Repr

/-- One state of the `for attempt in range(max_attempts)` loop in
`retry_on_error`: returns (outcome, number of calls to the wrapped
function, sleeps performed). -/
def retryGo (f : Nat → Except ε ρ) (retryable : ε → Bool)
    (rateRetryAfter : ε → Option Int) (backoff : ℚ) (maxAttempts : Nat) :
    Nat → ℚ → PyOutcome ε ρ × Nat × List ℚ
  | attempt, currentDelay =>
    if _h : attempt < maxAttempts then
      match f attempt with
      | .ok v => (.ok v, attempt + 1, [])
      | .error e =>
        if retryable e then
          if attempt = maxAttempts - 1 then
            (.raised e, attempt + 1, [])
          else
            let d : ℚ :=
              match rateRetryAfter e with
              | some r => (r : ℚ)
              | none => currentDelay
            let rest := retryGo f retryable rateRetryAfter backoff maxAttempts
              (attempt + 1) (d * backoff)
            (rest.1, rest.2.1, d :: rest.2.2)
        else
          (.raised e, attempt + 1, [])
    else
      (.runtimeError "不应该到达这里", attempt, [])
  termination_by attempt _ => maxAttempts - attempt

/-- `retry_on_error(max_attempts, delay, backoff, exceptions)` applied to a
function whose call outcomes are given by `f`. -/
def retry_on_error (maxAttempts : Nat) (delay : ℚ) (backoff : ℚ)
    (retryable : ε → Bool) (rateRetryAfter : ε → Option Int)
    (f : Nat → Except ε ρ) : PyOutcome ε ρ × Nat × List ℚ :=
  retryGo f retryable rateRetryAfter backoff maxAttempts 0 delay

/-! ### core/ocr_client.py — `QwenVLClient.ocr_images_batch`

The per-image call `self.ocr_image(image_path, prompt)` (already wrapped by
`retry_on_error`) is abstracted as an oracle `ocr`; an `.error e` outcome
models the exception text `str(e)` escaping the retries. -/

def ocrFailureMarker (e : String) : String := "<!-- OCR 失败: " ++ e ++ " -->"

def ocr_images_batch (ocr : α → String → Except String String)
    (imagePaths : List α) (prompt : String) : List String :=
  match imagePaths with
  | [] => []
  | p :: rest =>
    (match ocr p prompt with
     | .ok markdown => markdown
     | .error e => ocrFailureMarker e) :: ocr_images_batch ocr rest prompt

/-! ### cli.py — `parse_page_range`

Python `str` is embedded as `List Char` (`str` indexing/slicing is by code
point).  `str.strip`, `str.split` and `int()` are modelled on the ASCII
fragment this program feeds them (page-range expressions). -/

/-- ASCII whitespace stripped by `str.strip()`. -/
def pyIsSpace (c : Char) : Bool :=
  c = ' ' || c = '\t' || c = '\n' || c = '\x0d' || c = '\x0b' || c = '\x0c'

/-- `s.strip()`. -/
def pyStripChars (s : List Char) : List Char :=
  ((s.dropWhile pyIsSpace).reverse.dropWhile pyIsSpace).reverse

/-- `s.split(sep)` for a one-character separator. -/
def pySplitChar (sep : Char) (s : List Char) : List (List Char) :=
  s.foldr (fun c acc =>
    match acc with
    | cur :: rest => if c = sep then [] :: cur :: rest else (c :: cur) :: rest
    | [] => [[c]]) [[]]

/-- ASCII case conversion (`str.lower()` / `str.upper()` on the ASCII
letters this program feeds them). -/
def pyLowerChar (c : Char) : Char :=
  if 'A' ≤ c ∧ c ≤ 'Z' then Char.ofNat (c.toNat + 32) else c

def pyUpperChar (c : Char) : Char :=
  if 'a' ≤ c ∧ c ≤ 'z' then Char.ofNat (c.toNat - 32) else c

def pyLower (s : String) : String := String.mk (s.data.map pyLowerChar)

def pyUpper (s : String) : String := String.mk (s.data.map pyUpperChar)

def digitVal (c : Char) : Nat := c.toNat - 48

/-- Digit tail of a Python integer literal: digits with single underscores
allowed between digits (`int("1_0") == 10`). -/
def pyDigitsVal : List Char → Nat → Option Nat
  | [], acc => some acc
  | '_' :: c :: rest, acc =>
    if c.isDigit then pyDigitsVal rest (acc * 10 + digitVal c) else none
  | c :: rest, acc =>
    if c.isDigit then pyDigitsVal rest (acc * 10 + digitVal c) else none

def pyDigitsStart : List Char → Option Nat
  | [] => none
  | c :: rest => if c.isDigit then pyDigitsVal rest (digitVal c) else none

/-- `int(s)` on ASCII decimal literals: strip, optional sign, digits;
`none` models the `ValueError`. -/
def pyInt? (s : List Char) : Option Int :=
  match pyStripChars s with
  | '+' :: rest => (pyDigitsStart rest).map (fun n => (n : Int))
  | '-' :: rest => (pyDigitsStart rest).map (fun n => -(n : Int))
  | t => (pyDigitsStart t).map (fun n => (n : Int))

/-- `list(range(a, b))`. -/
def pythonRange (a b : Int) : List Int :=
  (List.range (b - a).toNat).map (fun k => a + k)

/-- `sorted(set(xs))` for integers. -/
def pySortedSet (xs : List Int) : List Int :=
  xs.dedup.insertionSort (· ≤ ·)

/-- One comma-separated token of `parse_page_range`'s loop body
(`part = part.strip()`, then either the `"-" in part` range branch or a
single `int(part)`). -/
def parse_page_part (part : List Char) : Except String (List Int) :=
  if '-' ∈ pyStripChars part then
    match pySplitChar '-' (pyStripChars part) with
    | [a, b] =>
      match pyInt? a, pyInt? b with
      | some s, some e => .ok (pythonRange s (e + 1))
      | _, _ => .error "ValueError: invalid literal for int()"
    | _ => .error "ValueError: unpacking mismatch"
  else
    match pyInt? (pyStripChars part) with
    | some n => .ok [n]
    | none => .error "ValueError: invalid literal for int()"

def parse_page_parts : List (List Char) → Except String (List Int)
  | [] => .ok []
  | part :: rest => do
    let xs ← parse_page_part part
    let ys ← parse_page_parts rest
    .ok (xs ++ ys)

/-- `cli.parse_page_range(pages_str, total_pages, first_page, last_page)`;
a `.error` models the `ValueError` escaping the function. -/
def parse_page_range (pagesStr : Option String) (totalPages : Int)
    (firstPage lastPage : Option Int) : Except String (List Int) :=
  match firstPage, lastPage with
  | some f, some l => .ok (pythonRange f (l + 1))
  | _, _ =>
    match pagesStr with
    | none => .ok (pythonRange 1 (totalPages + 1))
    | some s =>
      if s.data = [] then .ok (pythonRange 1 (totalPages + 1))
      else
        match parse_page_parts (pySplitChar ',' s.data) with
        | .error e => .error e
        | .ok pageNumbers =>
          .ok (pySortedSet (pageNumbers.filter
            (fun p => decide (1 ≤ p ∧ p ≤ totalPages))))

/-- Spec-side expansion of one page-range token, following the claim's
words: a token is either a single value or a hyphenated inclusive range. -/
def expandTokenSpec (tok : List Char) : Option (List Int) :=
  match pySplitChar '-' (pyStripChars tok) with
  | [a] => (pyInt? a).map (fun n => [n])
  | [a, b] =>
    match pyInt? a, pyInt? b with
    | some s, some e => some (pythonRange s (e + 1))
    | _, _ => none
  | _ => none

def expandTokensSpec : List (List Char) → Option (List Int)
  | [] => some []
  | t :: ts =>
    match expandTokenSpec t, expandTokensSpec ts with
    | some xs, some ys => some (xs ++ ys)
    | _, _ => none

/-- Spec-side expansion of a whole comma-separated page-range expression. -/
def expandSpec (s : String) : Option (List Int) :=
  expandTokensSpec (pySplitChar ',' s.data)

/-! ### core/pdf_processor.py — `PDFProcessor.__init__` -/

structure PDFProcessorCfg where
  dpi : Int
  outputFormat : String
  imagesDir : Option String
  deriving DecidableEq, Repr

/-- `PDFProcessor.__init__(dpi, output_format, images_dir)`.  The second
component records the I/O the constructor performs (the `mkdir` done by
`PDFImageExtractor.__init__` when an images directory is supplied); a
validation failure returns before that I/O. -/
def pdfProcessorInit (dpi : Int) (outputFormat : String)
    (imagesDir : Option String) :
    Except OCRError PDFProcessorCfg × List String :=
  if dpi < 72 ∨ 600 < dpi then
    (.error (.pdfProcessingError
      ("DPI 设置无效: " ++ toString dpi ++ "。DPI 应在 72 到 600 之间。")), [])
  else if pyUpper outputFormat ≠ "PNG" ∧ pyUpper outputFormat ≠ "JPEG" ∧
      pyUpper outputFormat ≠ "JPG" then
    (.error (.pdfProcessingError
      ("输出格式不支持: " ++ outputFormat ++ "。支持的格式: PNG, JPEG。")), [])
  else
    (.ok ⟨dpi, pyUpper outputFormat, imagesDir⟩,
      match imagesDir with
      | some d => ["mkdir " ++ d]
      | none => [])

/-- Kind of the error returned by a constructor result. -/
def initErrorIsConfiguration (r : Except OCRError PDFProcessorCfg) : Bool :=
  match r with
  | .error e => e.isConfigurationError
  | .ok _ => false

def initErrorIsProcessing (r : Except OCRError PDFProcessorCfg) : Bool :=
  match r with
  | .error e => e.isPDFProcessingError
  | .ok _ => false

/-! ### core/image_preprocessor.py — `ImagePreprocessor.preprocess`

PIL images are mutable heap objects; the heap is modelled as a list of
image payloads (`Img`, raw pixel data) addressed by allocation index.
`image.copy()`, `ImageEnhance.*(img).enhance(factor)` and
`img.filter(ImageFilter.MedianFilter(size=3))` each return a fresh image
(they allocate; none of them writes to its receiver), so every step is an
allocation; the pixel-level transforms themselves live in PIL and are
passed in as opaque functions. -/

abbrev Img := List Nat

structure PILOps where
  contrast : ℚ → Img → Img
  sharpness : ℚ → Img → Img
  brightness : ℚ → Img → Img
  medianFilter3 : Img → Img

structure ImagePreprocessorCfg where
  enableEnhancement : Bool
  contrastFactor : ℚ
  sharpnessFactor : ℚ
  brightnessFactor : ℚ
  applyDenoise : Bool

def heapGet (h : List Img) (r : Nat) : Img := (h.get? r).getD []

def heapAlloc (h : List Img) (v : Img) : List Img × Nat := (h ++ [v], h.length)

/-- One `if <condition>: img = <new image>` step of `preprocess`. -/
def condAlloc (p : Prop) [Decidable p] (st : List Img × Nat)
    (v : List Img × Nat → Img) : List Img × Nat :=
  if p then heapAlloc st.1 (v st) else st

/-- `ImagePreprocessor.preprocess(image)`: returns the (possibly grown)
heap and the reference of the returned image. -/
def preprocess (pil : PILOps) (cfg : ImagePreprocessorCfg)
    (h : List Img) (image : Nat) : List Img × Nat :=
  if cfg.enableEnhancement = false then (h, image)
  else
    let s1 := heapAlloc h (heapGet h image)
    let s2 := condAlloc (cfg.contrastFactor ≠ 1) s1
      (fun st => pil.contrast cfg.contrastFactor (heapGet st.1 st.2))
    let s3 := condAlloc (cfg.sharpnessFactor ≠ 1) s2
      (fun st => pil.sharpness cfg.sharpnessFactor (heapGet st.1 st.2))
    let s4 := condAlloc (cfg.brightnessFactor ≠ 1) s3
      (fun st => pil.brightness cfg.brightnessFactor (heapGet st.1 st.2))
    condAlloc (cfg.applyDenoise = true) s4
      (fun st => pil.medianFilter3 (heapGet st.1 st.2))

/-- Witness fixture: opaque pixel transforms standing in for PIL. -/
def pilFixture : PILOps :=
  ⟨fun _ i => 0 :: i, fun _ i => 1 :: i, fun _ i => 2 :: i, fun i => 3 :: i⟩

/-- Witness fixture: enhancement disabled. -/
def cfgDisabledFixture : ImagePreprocessorCfg := ⟨false, 6 / 5, 3 / 2, 1, true⟩

/-- Witness fixture: enhancement enabled with the source's defaults
(contrast 1.2, sharpness 1.5, brightness 1.0, denoise on). -/
def cfgEnabledFixture : ImagePreprocessorCfg := ⟨true, 6 / 5, 3 / 2, 1, true⟩

/-! ### core/prompt_templates.py — `PromptTemplate`

The template texts below are the source's class attributes with
`.format(base_mode=...)` applied (so `{{`/`}}` appear unescaped); the
placeholder is the `baseMode` argument. -/

inductive OCRMode where
  | document
  | academic
  | table
  | formula
  | mixed
  deriving DecidableEq, Repr

/-- `OCRMode(s)`: value lookup in the `str`-valued enum; `none` models the
`ValueError`. -/
def ocrModeOfString? (s : String) : Option OCRMode :=
  if s = "document" then some .document
  else if s = "academic" then some .academic
  else if s = "table" then some .table
  else if s = "formula" then some .formula
  else if s = "mixed" then some .mixed
  else none

def BASE_MARKDOWN : String := "qwenvl markdown"

def ACADEMIC_PROMPT (baseMode : String) : String :=
  "请将这个学术文档页面转换为高质量的 Markdown 格式。\n"
  ++ "\n"
  ++ "特别要求:\n"
  ++ "1. **完整识别**: 识别所有文字内容,包括脚注、页眉、页脚\n"
  ++ "2. **公式处理**: 数学公式使用 LaTeX 格式,区分行内公式 ($...$) 和独立公式 ($$...$$)\n"
  ++ "3. **引用格式**: 保留参考文献的编号和格式\n"
  ++ "4. **图表说明**: 保留图表标题和说明文字\n"
  ++ "5. **结构层次**: 准确识别章节标题、附录、参考文献等结构\n"
  ++ "6. **多语言**: 准确识别中英文混合内容\n"
  ++ "7. **特殊符号**: 保留特殊符号、上下标、希腊字母等\n"
  ++ "\n"
  ++ baseMode
  ++ "\n"
  ++ "\n"
  ++ "输出格式要求:\n"
  ++ "- 使用标准的 Markdown 语法\n"
  ++ "- 表格转换为 Markdown 表格格式\n"
  ++ "- 代码块使用 ```语言 标记\n"
  ++ "- 不要遗漏任何内容,即使内容模糊也要尝试识别\n"

def DOCUMENT_PROMPT (baseMode : String) : String :=
  "请将这个文档页面转换为 Markdown 格式。\n"
  ++ "\n"
  ++ "要求:\n"
  ++ "1. 保留原始文档结构 (标题层级、段落、列表)\n"
  ++ "2. 准确识别所有文字内容,包括中英文混合\n"
  ++ "3. 保留表格格式为 Markdown 表格\n"
  ++ "4. 数学公式使用 LaTeX 格式 ($...$ 或 $$...$$)\n"
  ++ "5. 图片使用 ![描述](路径) 格式标记\n"
  ++ "6. 不要遗漏任何文字内容\n"
  ++ "\n"
  ++ baseMode
  ++ "\n"

def TABLE_PROMPT (baseMode : String) : String :=
  "请将这个包含大量表格的文档页面转换为 Markdown 格式。\n"
  ++ "\n"
  ++ "重点关注:\n"
  ++ "1. **表格结构**: 准确识别表格行列,合并单元格\n"
  ++ "2. **表头**: 正确识别表头行\n"
  ++ "3. **数据完整性**: 不遗漏任何单元格的数据\n"
  ++ "4. **表格标题**: 保留表格编号和标题\n"
  ++ "5. **表格注释**: 保留表格下方的注释和说明\n"
  ++ "\n"
  ++ baseMode
  ++ "\n"
  ++ "\n"
  ++ "对于复杂表格:\n"
  ++ "- 使用 Markdown 表格格式\n"
  ++ "- 如无法用 Markdown 表示,使用 HTML 表格\n"
  ++ "- 空单元格标记为空或 \"-\"\n"

def FORMULA_PROMPT (baseMode : String) : String :=
  "请将这个包含大量数学公式的文档页面转换为 LaTeX + Markdown 混合格式。\n"
  ++ "\n"
  ++ "公式处理规则:\n"
  ++ "1. **行内公式**: 使用单美元号 $公式$\n"
  ++ "2. **独立公式**: 使用双美元号 $$公式$$ (独立成行)\n"
  ++ "3. **矩阵**: 使用 \\begin\x7bmatrix\x7d...\\end\x7bmatrix\x7d 或 \\begin\x7bbmatrix\x7d...\\end\x7bbmatrix\x7d\n"
  ++ "4. **分式**: 使用 \\frac\x7b分子\x7d\x7b分母\x7d\n"
  ++ "5. **上下标**: 使用 ^ (上标) 和 _ (下标)\n"
  ++ "6. **希腊字母**: 转换为 LaTeX 命令 (如 \\alpha, \\beta, \\sum)\n"
  ++ "7. **特殊符号**: \\int (积分), \\partial (偏微分), \\infty (无穷) 等\n"
  ++ "8. **括号**: 使用 \\left( ... \\right) 自动调整大小\n"
  ++ "\n"
  ++ baseMode
  ++ "\n"
  ++ "\n"
  ++ "文字说明部分使用标准 Markdown 格式。\n"

def MIXED_PROMPT (baseMode : String) : String :=
  "请将这个文档页面转换为 Markdown 格式,自动处理各种元素。\n"
  ++ "\n"
  ++ "处理规则:\n"
  ++ "1. **文字**: 标准 Markdown 格式\n"
  ++ "2. **表格**: Markdown 表格或 HTML 表格\n"
  ++ "3. **公式**: LaTeX 格式 ($...$ 或 $$...$$)\n"
  ++ "4. **图片**: ![描述](路径)\n"
  ++ "5. **代码块**: ```语言 ... ```\n"
  ++ "6. **列表**: 保留有序/无序列表结构\n"
  ++ "\n"
  ++ baseMode
  ++ "\n"
  ++ "\n"
  ++ "优先保证内容的完整性和准确性,不要遗漏任何可见文字。\n"

/-- `PromptTemplate.get_prompt` once the mode is a valid `OCRMode` member:
select the template, format in the base trigger phrase, and append the
custom instruction when it is truthy. -/
def get_prompt_mode (mode : OCRMode) (customInstruction : Option String) :
    String :=
  let prompt :=
    (match mode with
     | .document => DOCUMENT_PROMPT
     | .academic => ACADEMIC_PROMPT
     | .table => TABLE_PROMPT
     | .formula => FORMULA_PROMPT
     | .mixed => MIXED_PROMPT) BASE_MARKDOWN
  match customInstruction with
  | some ci => if ci = "" then prompt else prompt ++ "\n\n额外要求:\n" ++ ci
  | none => prompt

/-- `PromptTemplate.get_prompt` called with a `str` mode:
`OCRMode(mode)` raises `ValueError` on an unrecognized value. -/
def get_prompt_str (mode : String) (customInstruction : Option String) :
    Except String String :=
  match ocrModeOfString? mode with
  | some m => .ok (get_prompt_mode m customInstruction)
  | none => .error ("ValueError: " ++ mode ++ " is not a valid OCRMode")

/-- `PromptTemplate.from_config(mode_name)`. -/
def from_config (modeName : String) : String :=
  match ocrModeOfString? (pyLower modeName) with
  | some m => get_prompt_mode m none
  | none => BASE_MARKDOWN ++ "\n\n" ++ modeName

/-! ### core/pdf_image_extractor.py — `PDFImageExtractor`

The PDF is abstracted as the data PyMuPDF exposes to this code: for each
page, the list of embedded image objects in document-declaration order.
For each object, `extracted` is the `(bytes, ext)` that
`doc.extract_image(xref)` yields, or `none` where that call raises or
returns a falsy value (either way the loop body skips the object). -/

structure PdfImageObj where
  extracted : Option (List Nat × String)
  deriving DecidableEq, Repr

structure PdfDoc where
  pages : List (List PdfImageObj)
  deriving DecidableEq, Repr

/-- The `for img_index, img in enumerate(image_list, start=1)` loop of
`extract_images`: indices count every declared object; failed objects are
skipped without aborting. -/
def extractImagesOnPage (imagesDir : String) (pageNum : Nat)
    (objs : List PdfImageObj) (imgIndex : Nat) : List (String × String) :=
  match objs with
  | [] => []
  | obj :: rest =>
    match obj.extracted with
    | some (_, ext) =>
      (imagesDir ++ "/page_" ++ toString pageNum ++ "_img_"
          ++ toString imgIndex ++ "." ++ ext,
        "Image " ++ toString imgIndex ++ " on page " ++ toString pageNum)
        :: extractImagesOnPage imagesDir pageNum rest (imgIndex + 1)
    | none => extractImagesOnPage imagesDir pageNum rest (imgIndex + 1)

/-- `PDFImageExtractor.extract_images(pdf_path, page_num)` (`page_num` is
1-based; `doc[page_num - 1]` raises `IndexError` when out of range). -/
def extract_images (imagesDir : String) (doc : PdfDoc) (pageNum : Nat) :
    Except String (List (String × String)) :=
  match doc.pages.get? (pageNum - 1) with
  | none => .error "IndexError: page not in document"
  | some objs => .ok (extractImagesOnPage imagesDir pageNum objs 1)

/-- The `for page_num in range(len(doc))` loop of `extract_all_images`:
`page = page_num + 1` is passed to the extraction, but the dict entry is
stored under `all_images[page_num]` — the 0-based loop index.  The dict is
an insertion-ordered association list. -/
def extractAllGo (imagesDir : String) (doc : PdfDoc) :
    List Nat → Except String (List (Nat × List (String × String)))
  | [] => .ok []
  | pageNum :: rest => do
    let images ← extract_images imagesDir doc (pageNum + 1)
    let tail ← extractAllGo imagesDir doc rest
    if images.isEmpty then .ok tail else .ok ((pageNum, images) :: tail)

/-- `PDFImageExtractor.extract_all_images(pdf_path)`. -/
def extract_all_images (imagesDir : String) (doc : PdfDoc) :
    Except String (List (Nat × List (String × String))) :=
  extractAllGo imagesDir doc (List.range doc.pages.length)

/-- A one-page PDF whose single page declares one extractable PNG image. -/
def demoPdfDoc : PdfDoc := ⟨[[⟨some ([7, 7], "png")⟩]]⟩

/-! ### core/image_manager.py — `ImageManager.extract_and_save_images`

`DATA_URL_PATTERN = r'!\[(.*?)\]\(data:image/(\w+);base64,([A-Za-z0-9+/=]+)\)'`
compiled over a Python `str`: `.` does not match a newline, `.*?` is lazy
(shortest alt text for which the rest of the pattern matches), `\w+` and
the base64 class are greedy (both are followed by a delimiter outside the
class, so no backtracking arises), and `finditer` yields non-overlapping
matches scanning left to right.  `\w` is modelled on its ASCII fragment
(letters, digits, underscore). -/

def isWordChar (c : Char) : Bool := c.isAlphanum || c = '_'

def isB64Char (c : Char) : Bool :=
  ('A' ≤ c && c ≤ 'Z') || ('a' ≤ c && c ≤ 'z') || ('0' ≤ c && c ≤ '9') ||
    c = '+' || c = '/' || c = '='

/-- Match a literal at the head of the input, returning the rest. -/
def dropLit : List Char → List Char → Option (List Char)
  | [], s => some s
  | _ :: _, [] => none
  | c :: cs, x :: xs => if x = c then dropLit cs xs else none

/-- Match `](data:image/<fmt>;base64,<data>)` at the head of the input:
returns the format and data groups and the number of characters consumed
(closing parenthesis included). -/
def matchCloseTail (s : List Char) : Option (List Char × List Char × Nat) :=
  match s with
  | c0 :: rest =>
    if c0 = ']' then
      match dropLit "(data:image/".data rest with
      | some r1 =>
        if (r1.takeWhile isWordChar).isEmpty then none
        else
          match dropLit ";base64,".data (r1.dropWhile isWordChar) with
          | some r3 =>
            if (r3.takeWhile isB64Char).isEmpty then none
            else
              match r3.dropWhile isB64Char with
              | c4 :: _ =>
                if c4 = ')' then
                  some (r1.takeWhile isWordChar, r3.takeWhile isB64Char,
                    1 + 12 + (r1.takeWhile isWordChar).length + 8
                      + (r3.takeWhile isB64Char).length + 1)
                else none
              | [] => none
          | none => none
      | none => none
    else none
  | [] => none

/-- The lazy `(.*?)` group: consume the shortest alt text (newlines are not
matched by `.`) after which `matchCloseTail` succeeds.  Returns
(alt, fmt, data, characters consumed from the alt start through the
closing parenthesis). -/
def findAlt : List Char → Option (List Char × List Char × List Char × Nat)
  | [] =>
    match matchCloseTail [] with
    | some (fmt, dat, len) => some ([], fmt, dat, len)
    | none => none
  | c :: rest =>
    match matchCloseTail (c :: rest) with
    | some (fmt, dat, len) => some ([], fmt, dat, len)
    | none =>
      if c = '\n' then none
      else
        match findAlt rest with
        | some (alt, fmt, dat, len) => some (c :: alt, fmt, dat, len + 1)
        | none => none

structure DataUrlMatch where
  start : Nat
  stop : Nat
  alt : List Char
  fmt : List Char
  data : List Char
  deriving DecidableEq, Repr

/-- Try the whole pattern anchored at the head of `t`; returns the groups
and the match length. -/
def matchAt (t : List Char) : Option (List Char × List Char × List Char × Nat) :=
  match t with
  | c1 :: c2 :: rest =>
    if c1 = '!' ∧ c2 = '[' then
      match findAlt rest with
      | some (alt, fmt, dat, len) => some (alt, fmt, dat, len + 2)
      | none => none
    else none
  | _ => none

/-- One scan step at absolute position `i` of the original string: emit
the match anchored here and resume after it, or advance one character; `k`
is the continuation of the scan. -/
def finditerStep (t : List Char) (i : Nat)
    (k : List Char → Nat → List DataUrlMatch) : List DataUrlMatch :=
  match matchAt t with
  | some (alt, fmt, dat, len) =>
    ⟨i, i + len, alt, fmt, dat⟩ :: k (t.drop len) (i + len)
  | none =>
    match t with
    | [] => []
    | _ :: rest => k rest (i + 1)

/-- `finditer`'s scan loop; `fuel = t.length + 1` suffices since every
step consumes at least one character. -/
def finditerGo : Nat → List Char → Nat → List DataUrlMatch
  | 0, _, _ => []
  | fuel + 1, t, i => finditerStep t i (finditerGo fuel)

def finditer (s : List Char) : List DataUrlMatch :=
  finditerGo (s.length + 1) s 0

/-- Value of a base64 alphabet character. -/
def b64val (c : Char) : Option Nat :=
  if 'A' ≤ c ∧ c ≤ 'Z' then some (c.toNat - 65)
  else if 'a' ≤ c ∧ c ≤ 'z' then some (c.toNat - 97 + 26)
  else if '0' ≤ c ∧ c ≤ '9' then some (c.toNat - 48 + 52)
  else if c = '+' then some 62
  else if c = '/' then some 63
  else none

def b64char (v : Nat) : Char :=
  if v < 26 then Char.ofNat (65 + v)
  else if v < 52 then Char.ofNat (97 + (v - 26))
  else if v < 62 then Char.ofNat (48 + (v - 52))
  else if v = 62 then '+'
  else '/'

/-- `base64.b64decode` on strings over `[A-Za-z0-9+/=]` (all the regex's
data group can produce), following CPython's non-strict
`binascii.a2b_base64`.  Data characters accumulate into four-character
quads (each full quad yields three bytes) and reset the pad counter.  A
`=` while the current quad holds fewer than two characters is ignored;
with two quad characters it is counted, and when the quad length plus the
incremented pad counter reaches four — on the second counted pad — one
byte is emitted and decoding ends, discarding any remaining characters;
with three quad characters a single `=` emits two bytes and ends the
decode likewise.  Input exhausted on a partial quad is `binascii.Error`,
modelled as `none` (as is a character outside the base64 alphabet, which
the regex's data group cannot produce). -/
def b64decodeLoop : List Char → List Nat → Nat → Option (List Nat)
  | [], [], _ => some []
  | [], _ :: _, _ => none
  | c :: rest, quad, pads =>
    if c = '=' then
      match quad with
      | [v1, v2] =>
        if 2 + (pads + 1) ≥ 4 then some [v1 * 4 + v2 / 16]
        else b64decodeLoop rest quad (pads + 1)
      | [v1, v2, v3] => some [v1 * 4 + v2 / 16, (v2 % 16) * 16 + v3 / 4]
      | _ => b64decodeLoop rest quad pads
    else
      match b64val c with
      | none => none
      | some v =>
        match quad with
        | [v1, v2, v3] =>
          (b64decodeLoop rest [] 0).map (fun bs =>
            (v1 * 4 + v2 / 16) :: ((v2 % 16) * 16 + v3 / 4)
              :: ((v3 % 4) * 64 + v) :: bs)
        | _ => b64decodeLoop rest (quad ++ [v]) 0

def b64decodePy (s : List Char) : Option (List Nat) := b64decodeLoop s [] 0

/-- Canonical base64 encoding of a byte sequence (`base64.b64encode`). -/
def b64encode : List Nat → List Char
  | [] => []
  | [b1] => [b64char (b1 / 4), b64char ((b1 % 4) * 16), '=', '=']
  | [b1, b2] =>
    [b64char (b1 / 4), b64char ((b1 % 4) * 16 + b2 / 16),
     b64char ((b2 % 16) * 4), '=']
  | b1 :: b2 :: b3 :: rest =>
    b64char (b1 / 4) :: b64char ((b1 % 4) * 16 + b2 / 16)
      :: b64char ((b2 % 16) * 4 + b3 / 64) :: b64char (b3 % 64)
      :: b64encode rest

/-- Python slicing index `s[:i]` / `s[i:]` semantics for a single,
possibly negative, bound. -/
def pyIdx (i : Int) (len : Nat) : Nat :=
  if i < 0 then ((len : Int) + i).toNat else min i.toNat len

def pySliceTake (l : List α) (i : Int) : List α := l.take (pyIdx i l.length)

def pySliceDrop (l : List α) (i : Int) : List α := l.drop (pyIdx i l.length)

/-- Filename `page_<p>_img_<n>.<fmt>` generated for a saved inline image. -/
def imageFileName (pageNum imageIndex : Nat) (fmt : List Char) : String :=
  "page_" ++ toString pageNum ++ "_img_" ++ toString imageIndex ++ "."
    ++ String.mk fmt

/-- The rewritten reference `![alt](<subdir>/page_<p>_img_<n>.<fmt>)`. -/
def inlineReplacement (pageNum : Nat) (subdir : String) (idx : Nat)
    (m : DataUrlMatch) : List Char :=
  ("![" ++ String.mk m.alt ++ "](" ++ subdir ++ "/"
    ++ imageFileName pageNum idx m.fmt ++ ")").data

structure ExtractState where
  processed : List Char
  offset : Int
  saved : List (String × List Nat)
  deriving Repr

/-- The loop body of `extract_and_save_images` for one regex match: decode
the payload (skip the match if that fails), save the file, splice the
relative-path reference over the adjusted span, update the offset. -/
def processMatch (pageNum : Nat) (subdir : String) (st : ExtractState)
    (m : DataUrlMatch) : ExtractState :=
  match b64decodePy m.data with
  | none => st
  | some bytes =>
    { processed :=
        pySliceTake st.processed ((m.start : Int) + st.offset)
          ++ inlineReplacement pageNum subdir (st.saved.length + 1) m
          ++ pySliceDrop st.processed ((m.stop : Int) + st.offset),
      offset := st.offset
        + ((inlineReplacement pageNum subdir (st.saved.length + 1) m).length
            : Int)
        - ((m.stop : Int) - (m.start : Int)),
      saved := st.saved
        ++ [(imageFileName pageNum (st.saved.length + 1) m.fmt, bytes)] }

/-- `ImageManager.extract_and_save_images(markdown, page_num)`: returns the
rewritten Markdown and the saved image files as (filename, bytes) pairs
(the files land in the `images/` subdirectory named by `subdir`). -/
def extract_and_save_images (subdir : String) (markdown : List Char)
    (pageNum : Nat) : List Char × List (String × List Nat) :=
  let final := (finditer markdown).foldl (processMatch pageNum subdir)
    ⟨markdown, 0, []⟩
  (final.processed, final.saved)

/-- Span `[a, b)` of the original text. -/
def seg (s : List Char) (a b : Nat) : List Char := (s.drop a).take (b - a)

/-- Claim-side rewriting: the original text with each successfully decoded
match span replaced, left to right, by `![alt](<subdir>/<filename>)`, and
all text outside those spans unchanged.  `count` is the number of images
already saved on this page. -/
def rewrittenSpec (pageNum : Nat) (subdir : String) (s : List Char) :
    Nat → Nat → List DataUrlMatch → List Char
  | cur, _, [] => s.drop cur
  | cur, count, m :: rest =>
    match b64decodePy m.data with
    | none => rewrittenSpec pageNum subdir s cur count rest
    | some _ =>
      seg s cur m.start
        ++ inlineReplacement pageNum subdir (count + 1) m
        ++ rewrittenSpec pageNum subdir s m.stop (count + 1) rest

/-- Claim-side files: each successfully decoded match in order yields
`page_<p>_img_<n>.<fmt>` holding exactly the base64 decoding of its data
group, `n` counting only successfully saved images. -/
def filesSpec (pageNum : Nat) :
    Nat → List DataUrlMatch → List (String × List Nat)
  | _, [] => []
  | count, m :: rest =>
    match b64decodePy m.data with
    | none => filesSpec pageNum count rest
    | some bytes =>
      (imageFileName pageNum (count + 1) m.fmt, bytes)
        :: filesSpec pageNum (count + 1) rest

/-- The match spans are ordered, non-overlapping and within bounds,
starting no earlier than `cur`. -/
def SpansFrom (len : Nat) : Nat → List DataUrlMatch → Prop
  | _, [] => True
  | cur, m :: rest =>
    cur ≤ m.start ∧ m.start ≤ m.stop ∧ m.stop ≤ len ∧
      SpansFrom len m.stop rest

/-! ### core/markdown_generator.py — `MarkdownGenerator`

`metadata` is a Python dict (insertion-ordered, string keys); the values
this program stores are strings and ints.  `datetime.now().strftime(...)`
is an external effect passed in as `now`.  `pathlib` paths are modelled as
POSIX (`/`-separated) strings. -/

inductive MetaVal where
  | s (v : String)
  | i (v : Int)
  deriving DecidableEq, Repr

/-- `str(v)`: how an f-string renders a metadata value.  (`Path(v)` in the
source requires the "source" value to be a string, which is what the
program stores there.) -/
def MetaVal.display : MetaVal → String
  | .s v => v
  | .i v => toString v

abbrev Metadata := List (String × MetaVal)

def metaFind (md : Metadata) (k : String) : Option MetaVal :=
  (md.find? (fun kv => kv.1 == k)).map (fun kv => kv.2)

/-- `pathlib.PurePosixPath(s).name`: the last path component, with empty
and `.` components dropped. -/
def posixName (s : String) : String :=
  ((((pySplitChar '/' s.data).map String.mk).filter
    (fun c => decide (c ≠ "" ∧ c ≠ "."))).getLast?).getD ""

/-- Index of the last occurrence of `c`, as `str.rfind` uses it. -/
def rfindChar (c : Char) (n : List Char) : Option Nat :=
  match n.reverse.findIdx? (fun x => x == c) with
  | some j => some (n.length - 1 - j)
  | none => none

/-- `pathlib.PurePosixPath(s).stem`: the name with its suffix removed; the
suffix starts at the last dot of the name provided that dot is neither the
name's first nor last character. -/
def posixStem (s : String) : String :=
  match rfindChar '.' (posixName s).data with
  | some i =>
    if 0 < i ∧ i < (posixName s).data.length - 1 then
      String.mk ((posixName s).data.take i)
    else posixName s
  | none => posixName s

/-- `"\n".join(lines)` (`str.join`). -/
def pyJoin (sep : String) : List String → String
  | [] => ""
  | [x] => x
  | x :: xs => x ++ sep ++ pyJoin sep xs

/-- The metadata blockquote block of `_build_markdown` (emitted only when
the metadata dict is truthy). -/
def metaLines (md : Metadata) (now : String) : List String :=
  ["> 由 OCRByMe 生成"]
  ++ (match metaFind md "source" with
      | some v => ["> 来源: " ++ posixName v.display]
      | none => [])
  ++ (match metaFind md "page_count" with
      | some v => ["> 页数: " ++ v.display]
      | none => [])
  ++ ["> 生成时间: " ++ now, "", "---", ""]

/-- The per-page lines of `_build_markdown` (`enumerate(ocr_results, 1)`). -/
def pageLines : Nat → List String → List String
  | _, [] => []
  | pageNum, result :: rest =>
    ["## 第 " ++ toString pageNum ++ " 页", "", "---", "", result, "", "---",
      ""] ++ pageLines (pageNum + 1) rest

/-- `MarkdownGenerator._build_markdown(ocr_results, metadata, ...)`. -/
def build_markdown (ocrResults : List String) (metadata : Option Metadata)
    (now : String) : String :=
  pyJoin "\n"
    (["# 文档", ""]
      ++ (match metadata with
          | some md => if md.isEmpty then [] else metaLines md now
          | none => [])
      ++ pageLines 1 ocrResults
      ++ ["<!-- 文档结束 -->"])

/-- `ImageManager.extract_and_save_images_from_markdown_list`. -/
def extract_from_markdown_list (subdir : String) :
    List String → Nat → List String × List (String × List Nat)
  | [], _ => ([], [])
  | md :: rest, pageNum =>
    ((String.mk (extract_and_save_images subdir md.data pageNum).1)
        :: (extract_from_markdown_list subdir rest (pageNum + 1)).1,
      (extract_and_save_images subdir md.data pageNum).2
        ++ (extract_from_markdown_list subdir rest (pageNum + 1)).2)

/-- The output-path determination of `MarkdownGenerator.generate`. -/
def generateOutputPath (outputDir : String) (metadata : Option Metadata)
    (outputPath : Option String) : String :=
  match outputPath with
  | some p => p
  | none =>
    match metadata with
    | some md =>
      if md.isEmpty then outputDir ++ "/output.md"
      else
        match metaFind md "source" with
        | some v => outputDir ++ "/" ++ posixStem v.display ++ ".md"
        | none => outputDir ++ "/output.md"
    | none => outputDir ++ "/output.md"

/-- `MarkdownGenerator.generate`: returns (output path, written content,
saved inline-image files). -/
def generate (outputDir : String) (extractImages : Bool)
    (imageSubdir : String) (ocrResults : List String)
    (metadata : Option Metadata) (outputPath : Option String)
    (now : String) : String × String × List (String × List Nat) :=
  let pr := if extractImages
    then extract_from_markdown_list imageSubdir ocrResults 1
    else (ocrResults, [])
  (generateOutputPath outputDir metadata outputPath,
    build_markdown pr.1 metadata now, pr.2)

/-- The claim-side per-page sections: `## 第 N 页` heading, horizontal
rule, the page's body, trailing horizontal rule. -/
def pagesBlockSpec : Nat → List String → String
  | _, [] => ""
  | n, r :: rs =>
    "## 第 " ++ toString n ++ " 页" ++ "\n\n---\n\n" ++ r ++ "\n\n---\n\n"
      ++ pagesBlockSpec (n + 1) rs

/-- The claim-side assembled document: title line, blockquote metadata
block (generator attribution, source filename, page count, timestamp)
followed by a horizontal rule, the page sections, and the closing marker
comment. -/
def assembledDocSpec (sourceName : String) (pageCount : Int) (now : String)
    (results : List String) : String :=
  "# 文档\n\n> 由 OCRByMe 生成\n> 来源: " ++ sourceName
    ++ "\n> 页数: " ++ toString pageCount
    ++ "\n> 生成时间: " ++ now ++ "\n\n---\n\n"
    ++ pagesBlockSpec 1 results
    ++ "<!-- 文档结束 -->"

/-- Witness fixture for the inline-image claim: three data-URL references
— a canonical payload, a pad-interspersed payload (`QQ=AB`, which
`base64.b64decode` accepts in non-strict mode), and an invalid trailing
payload (`QQ=`, which it rejects). -/
def demoMarkdown : String :=
  "A ![x](data:image/png;base64,QUJD) B ![y](data:image/jpeg;base64,QQ=AB) C ![z](data:image/gif;base64,QQ=) D"

/-- Witness fixture for the retry claim: fails twice retryably, then succeeds. -/
def retryFixtureOkAtThird (k : Nat) : Except String String :=
  if k < 2 then .error "boom" else .ok "ok"

/-- Witness fixture for the retry claim: always fails retryably. -/
def retryFixtureAlwaysFails (_ : Nat) : Except String String :=
  .error "always"

end OCRByMe

namespace OCRByMe

/-! ## Theorems -/

theorem retryGo_ok (f : Nat → Except ε ρ) (retryable : ε → Bool)
    (rra : ε → Option Int) (backoff : ℚ) (N : Nat) (v : ρ) :
    ∀ n a d, n = N - a → a < N →
    (∀ k, a ≤ k → k < N - 1 → ∃ e, f k = .error e ∧ retryable e = true) →
    f (N - 1) = .ok v →
    (retryGo f retryable rra backoff N a d).1 = .ok v ∧
    (retryGo f retryable rra backoff N a d).2.1 = N := by
  intro n
  induction n with
  | zero => intro a d hn ha _ _; omega
  | succ m ih =>
    intro a d hn ha hfail hok
    rw [retryGo]
    simp only [dif_pos ha]
    cases hfa : f a with
    | ok w =>
      -- the call at attempt `a` succeeded: this forces `a = N - 1`
      have haN : a = N - 1 := by
        by_contra hne
        obtain ⟨e, he, -⟩ := hfail a le_rfl (by omega)
        rw [hfa] at he
        exact Except.noConfusion he
      have hwv : w = v := by
        rw [haN, hok] at hfa
        exact (Except.ok.injEq _ _ ▸ hfa).symm
      subst hwv
      exact ⟨rfl, by show a + 1 = N; omega⟩
    | error e =>
      -- the call at attempt `a` failed
      have haN : a ≠ N - 1 := by
        intro h
        rw [h, hok] at hfa
        exact Except.noConfusion hfa
      obtain ⟨e', he', hr'⟩ := hfail a le_rfl (by omega)
      have hee : e' = e := by
        rw [hfa] at he'
        exact (Except.error.injEq _ _ ▸ he').symm
      subst hee
      simp only [hr', if_neg haN, if_true]
      exact ih (a + 1) _ (by omega) (by omega)
        (fun k hk1 hk2 => hfail k (by omega) hk2) hok

theorem retryGo_exhausted (f : Nat → Except ε ρ) (retryable : ε → Bool)
    (rra : ε → Option Int) (backoff : ℚ) (N : Nat) (e : ε) :
    ∀ n a d, n = N - a → a < N →
    (∀ k, a ≤ k → k < N → ∃ e, f k = .error e ∧ retryable e = true) →
    f (N - 1) = .error e →
    (retryGo f retryable rra backoff N a d).1 = .raised e ∧
    (retryGo f retryable rra backoff N a d).2.1 = N := by
  intro n
  induction n with
  | zero => intro a d hn ha _ _; omega
  | succ m ih =>
    intro a d hn ha hfail hlast
    rw [retryGo]
    simp only [dif_pos ha]
    obtain ⟨e', he', hr'⟩ := hfail a le_rfl ha
    cases hfa : f a with
    | ok w => rw [hfa] at he'; exact Except.noConfusion he'
    | error e'' =>
      rw [hfa] at he'
      injection he' with hee
      subst hee
      by_cases haN : a = N - 1
      · rw [haN, hlast] at hfa
        injection hfa with he2
        subst he2
        simp only [hr', if_pos haN, if_true]
        refine ⟨trivial, ?_⟩
        omega
      · simp only [hr', if_neg haN, if_true]
        exact ih (a + 1) _ (by omega) (by omega)
          (fun k hk1 hk2 => hfail k (by omega) hk2) hlast

/-- C2: retry behavior of `retry_on_error` with `max_attempts = N`:
(1) failing retryably on the first `N-1` calls and succeeding on the `N`-th
returns the success value after exactly `N` calls; (2) failing retryably on
every call re-raises the last exception after exactly `N` calls; (3) a
non-retryable exception on the first call propagates after exactly one
call. -/
theorem retry_on_error_spec (N : Nat) (hN : 1 ≤ N) (delay backoff : ℚ)
    (retryable : ε → Bool) (rra : ε → Option Int) (f : Nat → Except ε ρ) :
    ((∀ k, k < N - 1 → ∃ e, f k = .error e ∧ retryable e = true) →
      ∀ v, f (N - 1) = .ok v →
        (retry_on_error N delay backoff retryable rra f).1 = .ok v ∧
        (retry_on_error N delay backoff retryable rra f).2.1 = N) ∧
    ((∀ k, k < N → ∃ e, f k = .error e ∧ retryable e = true) →
      ∀ e, f (N - 1) = .error e →
        (retry_on_error N delay backoff retryable rra f).1 = .raised e ∧
        (retry_on_error N delay backoff retryable rra f).2.1 = N) ∧
    (∀ e, f 0 = .error e → retryable e = false →
        (retry_on_error N delay backoff retryable rra f).1 = .raised e ∧
        (retry_on_error N delay backoff retryable rra f).2.1 = 1) := by
  refine ⟨?_, ?_, ?_⟩
  · intro hfail v hok
    exact retryGo_ok f retryable rra backoff N v N 0 delay (by omega) (by omega)
      (fun k _ hk => hfail k hk) hok
  · intro hfail e hlast
    exact retryGo_exhausted f retryable rra backoff N e N 0 delay (by omega)
      (by omega) (fun k _ hk => hfail k hk) hlast
  · intro e h0 hnr
    unfold retry_on_error
    rw [retryGo]
    simp only [dif_pos (by omega : 0 < N), h0, hnr]
    exact ⟨rfl, rfl⟩

/-- Witness for C2: the three retry scenarios at `max_attempts = 3` on
concrete call oracles. -/
theorem retry_on_error_spec_witness :
    ((retry_on_error 3 1 2 (fun _ => true) (fun _ => none)
        retryFixtureOkAtThird).1 = .ok "ok" ∧
      (retry_on_error 3 1 2 (fun _ => true) (fun _ => none)
        retryFixtureOkAtThird).2.1 = 3) ∧
    ((retry_on_error 3 1 2 (fun _ => true) (fun _ => none)
        retryFixtureAlwaysFails).1 = .raised "always" ∧
      (retry_on_error 3 1 2 (fun _ => true) (fun _ => none)
        retryFixtureAlwaysFails).2.1 = 3) ∧
    ((retry_on_error 3 1 2 (fun _ => false) (fun _ => none)
        retryFixtureAlwaysFails).1 = .raised "always" ∧
      (retry_on_error 3 1 2 (fun _ => false) (fun _ => none)
        retryFixtureAlwaysFails).2.1 = 1) := by
  refine ⟨?_, ?_, ?_⟩
  · exact (retry_on_error_spec 3 (by norm_num) 1 2 (fun _ => true)
      (fun _ => none) retryFixtureOkAtThird).1
      (fun k hk => ⟨"boom", by simp [retryFixtureOkAtThird]; omega, rfl⟩)
      "ok" (by simp [retryFixtureOkAtThird])
  · exact (retry_on_error_spec 3 (by norm_num) 1 2 (fun _ => true)
      (fun _ => none) retryFixtureAlwaysFails).2.1
      (fun k _ => ⟨"always", rfl, rfl⟩) "always" rfl
  · exact (retry_on_error_spec 3 (by norm_num) 1 2 (fun _ => false)
      (fun _ => none) retryFixtureAlwaysFails).2.2 "always" rfl rfl

theorem pySplitChar_cons (sep c : Char) (s : List Char) :
    pySplitChar sep (c :: s) =
      match pySplitChar sep s with
      | cur :: rest => if c = sep then [] :: cur :: rest else (c :: cur) :: rest
      | [] => [[c]] := rfl

theorem pySplitChar_ne_nil (sep : Char) (s : List Char) :
    pySplitChar sep s ≠ [] := by
  induction s with
  | nil => simp [pySplitChar]
  | cons c rest ih =>
    rw [pySplitChar_cons]
    cases h : pySplitChar sep rest with
    | nil => simp
    | cons cur r =>
      by_cases hc : c = sep <;> simp [hc]

theorem pySplitChar_of_not_mem {sep : Char} {s : List Char} (hs : sep ∉ s) :
    pySplitChar sep s = [s] := by
  induction s with
  | nil => rfl
  | cons c rest ih =>
    have hc : ¬(c = sep) := fun h => hs (h ▸ List.mem_cons_self _ _)
    rw [pySplitChar_cons, ih (fun h => hs (List.mem_cons_of_mem _ h))]
    simp [hc]

theorem two_le_length_pySplitChar {sep : Char} {s : List Char} (hs : sep ∈ s) :
    2 ≤ (pySplitChar sep s).length := by
  induction s with
  | nil => cases hs
  | cons c rest ih =>
    rw [pySplitChar_cons]
    cases h : pySplitChar sep rest with
    | nil => exact absurd h (pySplitChar_ne_nil sep rest)
    | cons cur r =>
      by_cases hc : c = sep
      · simp [hc]
      · rcases List.mem_cons.mp hs with h1 | h2
        · exact absurd h1.symm hc
        · have := ih h2
          rw [h] at this
          simp only [if_neg hc, List.length_cons] at this ⊢
          omega

theorem pySplitChar_eq_singleton {sep : Char} {s a : List Char}
    (h : pySplitChar sep s = [a]) : a = s ∧ sep ∉ s := by
  by_cases hm : sep ∈ s
  · have := two_le_length_pySplitChar hm
    rw [h] at this
    simp at this
  · rw [pySplitChar_of_not_mem hm] at h
    exact ⟨(List.cons.injEq _ _ _ _ ▸ h).1.symm, hm⟩

theorem parse_page_part_of_expandToken {tok : List Char} {xs : List Int}
    (h : expandTokenSpec tok = some xs) : parse_page_part tok = .ok xs := by
  unfold expandTokenSpec at h
  unfold parse_page_part
  by_cases hm : '-' ∈ pyStripChars tok
  · rw [if_pos hm]
    cases hsp : pySplitChar '-' (pyStripChars tok) with
    | nil => exact absurd hsp (pySplitChar_ne_nil _ _)
    | cons a rest =>
      rw [hsp] at h
      cases rest with
      | nil => exact absurd (pySplitChar_eq_singleton hsp).2 (fun h2 => h2 hm)
      | cons b rest2 =>
        cases rest2 with
        | nil =>
          dsimp only [] at h ⊢
          cases h1 : pyInt? a with
          | none => rw [h1] at h; simp at h
          | some v1 =>
            cases h2 : pyInt? b with
            | none => rw [h1, h2] at h; simp at h
            | some v2 =>
              rw [h1, h2] at h
              simp only [Option.some.injEq] at h
              dsimp only []
              rw [h]
        | cons d rest3 => simp at h
  · rw [if_neg hm]
    rw [pySplitChar_of_not_mem hm] at h
    dsimp only [] at h
    cases h1 : pyInt? (pyStripChars tok) with
    | none => rw [h1] at h; simp at h
    | some v =>
      rw [h1] at h
      simp only [Option.map_some', Option.some.injEq] at h
      dsimp only []
      rw [h]

theorem parse_page_parts_of_expandTokens :
    ∀ {toks : List (List Char)} {L : List Int},
      expandTokensSpec toks = some L → parse_page_parts toks = .ok L := by
  intro toks
  induction toks with
  | nil =>
    intro L h
    simp only [expandTokensSpec, Option.some.injEq] at h
    rw [← h]
    rfl
  | cons t ts ih =>
    intro L h
    unfold expandTokensSpec at h
    cases h1 : expandTokenSpec t with
    | none => rw [h1] at h; simp at h
    | some xs =>
      cases h2 : expandTokensSpec ts with
      | none => rw [h1, h2] at h; simp at h
      | some ys =>
        rw [h1, h2] at h
        simp only [Option.some.injEq] at h
        show (do
          let xs ← parse_page_part t
          let ys ← parse_page_parts ts
          Except.ok (xs ++ ys)) = .ok L
        rw [parse_page_part_of_expandToken h1, ih h2]
        exact congrArg Except.ok h

/-- C4: for a well-formed page-range expression (one whose spec-side
expansion is defined), `parse_page_range(expr, total)` returns exactly
`sorted(set(p for p in expand(expr) if 1 ≤ p ≤ total))`: out-of-range
values are silently dropped, the result is ascending and duplicate-free,
and an absent expression yields `[1..total]`. -/
theorem parse_page_range_expr_spec (s : String) (T : Int) (L : List Int)
    (hne : s.data ≠ []) (hexp : expandSpec s = some L) :
    parse_page_range (some s) T none none =
      .ok (pySortedSet (L.filter (fun p => decide (1 ≤ p ∧ p ≤ T)))) ∧
    (pySortedSet (L.filter (fun p => decide (1 ≤ p ∧ p ≤ T)))).Sorted (· ≤ ·) ∧
    (pySortedSet (L.filter (fun p => decide (1 ≤ p ∧ p ≤ T)))).Nodup ∧
    parse_page_range none T none none = .ok (pythonRange 1 (T + 1)) := by
  refine ⟨?_, ?_, ?_, rfl⟩
  · show (if s.data = [] then Except.ok (pythonRange 1 (T + 1))
      else match parse_page_parts (pySplitChar ',' s.data) with
        | .error e => .error e
        | .ok pageNumbers =>
          .ok (pySortedSet (pageNumbers.filter
            (fun p => decide (1 ≤ p ∧ p ≤ T))))) = _
    rw [if_neg hne, parse_page_parts_of_expandTokens hexp]
  · exact List.sorted_insertionSort _ _
  · exact ((List.perm_insertionSort _ _).nodup_iff).mpr (List.nodup_dedup _)

/-- Witness for C4: the claim's three concrete examples. -/
theorem parse_page_range_expr_spec_witness :
    expandSpec "1-3,2-4" = some [1, 2, 3, 2, 3, 4] ∧
    parse_page_range (some "1-3,2-4") 10 none none = .ok [1, 2, 3, 4] ∧
    expandSpec "11-15" = some [11, 12, 13, 14, 15] ∧
    parse_page_range (some "11-15") 10 none none = .ok [] ∧
    parse_page_range none 10 none none =
      .ok [1, 2, 3, 4, 5, 6, 7, 8, 9, 10] := by
  refine ⟨by decide, ?_, by decide, ?_, ?_⟩
  · rw [(parse_page_range_expr_spec "1-3,2-4" 10 [1, 2, 3, 2, 3, 4]
      (by decide) (by decide)).1]
    exact congrArg Except.ok (by decide)
  · rw [(parse_page_range_expr_spec "11-15" 10 [11, 12, 13, 14, 15]
      (by decide) (by decide)).1]
    exact congrArg Except.ok (by decide)
  · rw [(parse_page_range_expr_spec "11-15" 10 [11, 12, 13, 14, 15]
      (by decide) (by decide)).2.2.2]
    exact congrArg Except.ok (by decide)

/-- C10: when both `first_page` and `last_page` are supplied,
`parse_page_range` returns the contiguous `list(range(first, last + 1))`,
ignoring the expression string and the total page count — no
de-duplication, bounds filtering or clamping, so pages beyond the document
(e.g. pages 5–7 of a 3-page document) are returned verbatim. -/
theorem parse_page_range_first_last_spec (pagesStr : Option String)
    (T f l : Int) :
    parse_page_range pagesStr T (some f) (some l) =
      .ok (pythonRange f (l + 1)) ∧
    parse_page_range (some "1") 3 (some 5) (some 7) = .ok [5, 6, 7] :=
  ⟨rfl, congrArg Except.ok (by decide)⟩

/-- C1: the batch OCR over `K` input images returns exactly `K` Markdown
strings in input order; a position whose single-image OCR call succeeds
holds the returned text, a position whose call fails holds the
HTML-comment error marker, and a failure never aborts later positions. -/
theorem ocr_images_batch_spec (ocr : α → String → Except String String)
    (imagePaths : List α) (prompt : String) :
    (ocr_images_batch ocr imagePaths prompt).length = imagePaths.length ∧
    ∀ i, (ocr_images_batch ocr imagePaths prompt).get? i =
      (imagePaths.get? i).map (fun p =>
        match ocr p prompt with
        | .ok markdown => markdown
        | .error e => ocrFailureMarker e) := by
  induction imagePaths with
  | nil => exact ⟨rfl, fun i => by cases i <;> rfl⟩
  | cons p rest ih =>
    refine ⟨by simpa [ocr_images_batch] using ih.1, fun i => ?_⟩
    cases i with
    | zero => simp [ocr_images_batch]
    | succ j => simpa [ocr_images_batch] using ih.2 j

theorem condAlloc_inv {h : List Img} {r : Nat} (hr : r < h.length)
    (p : Prop) [Decidable p] (st : List Img × Nat)
    (v : List Img × Nat → Img)
    (hst : st.1.get? r = h.get? r ∧ h.length ≤ st.1.length) :
    (condAlloc p st v).1.get? r = h.get? r ∧
    h.length ≤ (condAlloc p st v).1.length := by
  unfold condAlloc
  split
  · refine ⟨?_, ?_⟩
    · rw [show (heapAlloc st.1 (v st)).1 = st.1 ++ [v st] from rfl]
      rw [List.get?_append (lt_of_lt_of_le hr hst.2)]
      exact hst.1
    · simp only [heapAlloc, List.length_append, List.length_singleton]
      omega
  · exact hst

/-- C9: with enhancement disabled, `preprocess` returns its input image
unchanged (the very same reference, heap untouched); and for every
profile, `preprocess` never mutates any existing image in place — every
previously allocated image (the input in particular) holds the same
payload after the call. -/
theorem preprocess_identity_and_no_mutation (pil : PILOps)
    (cfg : ImagePreprocessorCfg) (h : List Img) (image : Nat) :
    (cfg.enableEnhancement = false → preprocess pil cfg h image = (h, image)) ∧
    (∀ r, r < h.length →
      ((preprocess pil cfg h image).1).get? r = h.get? r) := by
  constructor
  · intro he
    unfold preprocess
    rw [if_pos he]
  · intro r hr
    by_cases he : cfg.enableEnhancement = false
    · unfold preprocess
      rw [if_pos he]
    · unfold preprocess
      rw [if_neg he]
      refine (condAlloc_inv hr _ _ _ ?_).1
      refine condAlloc_inv hr _ _ _ ?_
      refine condAlloc_inv hr _ _ _ ?_
      refine condAlloc_inv hr _ _ _ ?_
      refine ⟨?_, ?_⟩
      · exact List.get?_append hr
      · simp only [heapAlloc, List.length_append, List.length_singleton]
        omega

/-- Witness for C9: a one-image heap, with the disabled profile and with the
source's default enabled profile. -/
theorem preprocess_identity_and_no_mutation_witness :
    preprocess pilFixture cfgDisabledFixture [[9, 9]] 0 = ([[9, 9]], 0) ∧
    ((preprocess pilFixture cfgEnabledFixture [[9, 9]] 0).1).get? 0 =
      some [9, 9] := by
  constructor
  · exact (preprocess_identity_and_no_mutation pilFixture cfgDisabledFixture
      [[9, 9]] 0).1 rfl
  · exact ((preprocess_identity_and_no_mutation pilFixture cfgEnabledFixture
      [[9, 9]] 0).2 0 (by norm_num)).trans rfl

/-- C7 counterexample: at `dpi = 71` the constructor does fail fast before
any I/O, but with a `PDFProcessingError`, not a configuration-kind error —
refuting the claim that the error is of the `ConfigurationError` kind. -/
theorem pdf_processor_init_dpi_counterexample :
    (pdfProcessorInit 71 "PNG" (some "images")).2 = [] ∧
    initErrorIsConfiguration (pdfProcessorInit 71 "PNG" (some "images")).1
      = false ∧
    initErrorIsProcessing (pdfProcessorInit 71 "PNG" (some "images")).1
      = true := by
  refine ⟨?_, ?_, ?_⟩ <;> rfl

/-- C7 (amended): for every dpi outside `[72, 600]`, constructing the page
rasterizer fails fast, before any I/O (no `mkdir` is performed), with a
processing-kind error (`PDFProcessingError`), which is also not the
configuration kind. -/
theorem pdf_processor_init_dpi_spec (dpi : Int) (fmt : String)
    (dir : Option String) (hd : dpi < 72 ∨ 600 < dpi) :
    pdfProcessorInit dpi fmt dir =
      (.error (.pdfProcessingError
        ("DPI 设置无效: " ++ toString dpi ++ "。DPI 应在 72 到 600 之间。")),
       []) ∧
    initErrorIsConfiguration (pdfProcessorInit dpi fmt dir).1 = false := by
  unfold pdfProcessorInit
  rw [if_pos hd]
  exact ⟨rfl, rfl⟩

/-- Witness for C7 (amended): `dpi = 601`. -/
theorem pdf_processor_init_dpi_spec_witness :
    pdfProcessorInit 601 "PNG" (some "out/images") =
      (.error (.pdfProcessingError
        "DPI 设置无效: 601。DPI 应在 72 到 600 之间。"), []) ∧
    initErrorIsConfiguration (pdfProcessorInit 601 "PNG" (some "out/images")).1
      = false := by
  have h := pdf_processor_init_dpi_spec 601 "PNG" (some "out/images")
    (by norm_num)
  refine ⟨h.1.trans ?_, h.2⟩
  rfl

/-- C8 counterexample: `"Academic"` is not one of the five fixed mode tags,
yet `from_config` does not return the base trigger phrase with it appended
— mode recognition lowercases its argument first, so `"Academic"` resolves
to the academic template. -/
theorem from_config_case_counterexample :
    ("Academic" ≠ "document" ∧ "Academic" ≠ "academic" ∧
     "Academic" ≠ "table" ∧ "Academic" ≠ "formula" ∧ "Academic" ≠ "mixed") ∧
    from_config "Academic" ≠ BASE_MARKDOWN ++ "\n\n" ++ "Academic" ∧
    from_config "Academic" = get_prompt_mode .academic none := by
  refine ⟨by decide, by decide, rfl⟩

/-- C8 (amended): for every mode string whose lowercased form is not one of
the five fixed mode tags, `from_config` raises no error and returns the
base trigger phrase with the string appended as a free-form instruction;
the `get_prompt` entry point instead raises `ValueError` for a string that
is not a valid mode value. -/
theorem from_config_unknown_mode_spec (modeName : String)
    (hlo : ocrModeOfString? (pyLower modeName) = none)
    (hraw : ocrModeOfString? modeName = none) :
    from_config modeName = BASE_MARKDOWN ++ "\n\n" ++ modeName ∧
    get_prompt_str modeName none =
      .error ("ValueError: " ++ modeName ++ " is not a valid OCRMode") := by
  constructor
  · unfold from_config
    rw [hlo]
  · unfold get_prompt_str
    rw [hraw]

/-- Witness for C8 (amended): a free-form Chinese instruction as the mode. -/
theorem from_config_unknown_mode_spec_witness :
    from_config "只输出正文文字" =
      BASE_MARKDOWN ++ "\n\n" ++ "只输出正文文字" ∧
    get_prompt_str "只输出正文文字" none =
      .error ("ValueError: " ++ "只输出正文文字" ++ " is not a valid OCRMode") :=
  from_config_unknown_mode_spec "只输出正文文字" (by decide) (by decide)

/-- C6 evaluated at the failing input: a one-page PDF whose page 1 contains
one embedded image.  `extract_all_images` returns the mapping keyed by the
0-based loop index `0`, not the 1-based page number `1` that the claim
(and the filename `page_1_img_1.png` generated by the same loop) uses. -/
theorem extract_all_images_zero_based_key :
    extract_all_images "images" demoPdfDoc =
      .ok [(0, [("images/page_1_img_1.png", "Image 1 on page 1")])] := by
  rfl

theorem b64decodeLoop_d0 {c : Char} {v : Nat} (rest : List Char)
    (pads : Nat) (hne : c ≠ '=') (hv : b64val c = some v) :
    b64decodeLoop (c :: rest) [] pads = b64decodeLoop rest [v] 0 := by
  rw [b64decodeLoop.eq_def]
  simp [hne, hv]

theorem b64decodeLoop_d1 {c : Char} {v : Nat} (rest : List Char)
    (v1 pads : Nat) (hne : c ≠ '=') (hv : b64val c = some v) :
    b64decodeLoop (c :: rest) [v1] pads = b64decodeLoop rest [v1, v] 0 := by
  rw [b64decodeLoop.eq_def]
  simp [hne, hv]

theorem b64decodeLoop_d2 {c : Char} {v : Nat} (rest : List Char)
    (v1 v2 pads : Nat) (hne : c ≠ '=') (hv : b64val c = some v) :
    b64decodeLoop (c :: rest) [v1, v2] pads
      = b64decodeLoop rest [v1, v2, v] 0 := by
  rw [b64decodeLoop.eq_def]
  simp [hne, hv]

theorem b64decodeLoop_d3 {c : Char} {v : Nat} (rest : List Char)
    (v1 v2 v3 pads : Nat) (hne : c ≠ '=') (hv : b64val c = some v) :
    b64decodeLoop (c :: rest) [v1, v2, v3] pads =
      (b64decodeLoop rest [] 0).map (fun bs =>
        (v1 * 4 + v2 / 16) :: ((v2 % 16) * 16 + v3 / 4)
          :: ((v3 % 4) * 64 + v) :: bs) := by
  rw [b64decodeLoop.eq_def]
  simp [hne, hv]

theorem b64decodeLoop_pad2_cont (rest : List Char) (v1 v2 : Nat) :
    b64decodeLoop ('=' :: rest) [v1, v2] 0
      = b64decodeLoop rest [v1, v2] 1 := by
  rw [b64decodeLoop.eq_def]
  simp

theorem b64decodeLoop_pad2_done (rest : List Char) (v1 v2 pads : Nat)
    (hp : 1 ≤ pads) :
    b64decodeLoop ('=' :: rest) [v1, v2] pads = some [v1 * 4 + v2 / 16] := by
  rw [b64decodeLoop.eq_def]
  simp [show 2 + (pads + 1) ≥ 4 from by omega]

theorem b64decodeLoop_pad3 (rest : List Char) (v1 v2 v3 pads : Nat) :
    b64decodeLoop ('=' :: rest) [v1, v2, v3] pads =
      some [v1 * 4 + v2 / 16, (v2 % 16) * 16 + v3 / 4] := by
  rw [b64decodeLoop.eq_def]
  simp

theorem b64_char_val : ∀ v, v < 64 → b64val (b64char v) = some v ∧
    b64char v ≠ '=' := by decide

theorem b64decode_encode :
    ∀ (bs : List Nat), (∀ b ∈ bs, b < 256) →
      b64decodePy (b64encode bs) = some bs
  | [], _ => rfl
  | [b1], hb => by
    have h1 : b1 < 256 := hb b1 (by simp)
    obtain ⟨e1, ne1⟩ := b64_char_val (b1 / 4) (by omega)
    obtain ⟨e2, ne2⟩ := b64_char_val ((b1 % 4) * 16) (by omega)
    show b64decodeLoop [b64char (b1 / 4), b64char ((b1 % 4) * 16), '=', '=']
      [] 0 = some [b1]
    rw [b64decodeLoop_d0 _ _ ne1 e1, b64decodeLoop_d1 _ _ _ ne2 e2,
      b64decodeLoop_pad2_cont, b64decodeLoop_pad2_done _ _ _ _ le_rfl]
    have harith : b1 / 4 * 4 + (b1 % 4) * 16 / 16 = b1 := by omega
    rw [harith]
  | [b1, b2], hb => by
    have h1 : b1 < 256 := hb b1 (by simp)
    have h2 : b2 < 256 := hb b2 (by simp)
    obtain ⟨e1, ne1⟩ := b64_char_val (b1 / 4) (by omega)
    obtain ⟨e2, ne2⟩ := b64_char_val ((b1 % 4) * 16 + b2 / 16) (by omega)
    obtain ⟨e3, ne3⟩ := b64_char_val ((b2 % 16) * 4) (by omega)
    show b64decodeLoop [b64char (b1 / 4), b64char ((b1 % 4) * 16 + b2 / 16),
      b64char ((b2 % 16) * 4), '='] [] 0 = some [b1, b2]
    rw [b64decodeLoop_d0 _ _ ne1 e1, b64decodeLoop_d1 _ _ _ ne2 e2,
      b64decodeLoop_d2 _ _ _ _ ne3 e3, b64decodeLoop_pad3]
    have ha1 : b1 / 4 * 4 + ((b1 % 4) * 16 + b2 / 16) / 16 = b1 := by omega
    have ha2 : ((b1 % 4) * 16 + b2 / 16) % 16 * 16 + (b2 % 16) * 4 / 4 = b2 := by
      omega
    rw [ha1, ha2]
  | b1 :: b2 :: b3 :: rest, hb => by
    have h1 : b1 < 256 := hb b1 (by simp)
    have h2 : b2 < 256 := hb b2 (by simp)
    have h3 : b3 < 256 := hb b3 (by simp)
    obtain ⟨e1, ne1⟩ := b64_char_val (b1 / 4) (by omega)
    obtain ⟨e2, ne2⟩ := b64_char_val ((b1 % 4) * 16 + b2 / 16) (by omega)
    obtain ⟨e3, ne3⟩ := b64_char_val ((b2 % 16) * 4 + b3 / 64) (by omega)
    obtain ⟨e4, ne4⟩ := b64_char_val (b3 % 64) (by omega)
    have ih := b64decode_encode rest (fun b hbm => hb b (by simp [hbm]))
    show b64decodeLoop (b64char (b1 / 4)
      :: b64char ((b1 % 4) * 16 + b2 / 16)
      :: b64char ((b2 % 16) * 4 + b3 / 64) :: b64char (b3 % 64)
      :: b64encode rest) [] 0 = some (b1 :: b2 :: b3 :: rest)
    rw [b64decodeLoop_d0 _ _ ne1 e1, b64decodeLoop_d1 _ _ _ ne2 e2,
      b64decodeLoop_d2 _ _ _ _ ne3 e3, b64decodeLoop_d3 _ _ _ _ _ ne4 e4]
    rw [show b64decodeLoop (b64encode rest) [] 0 = some rest from ih]
    have ha1 : b1 / 4 * 4 + ((b1 % 4) * 16 + b2 / 16) / 16 = b1 := by omega
    have ha2 : ((b1 % 4) * 16 + b2 / 16) % 16 * 16
        + ((b2 % 16) * 4 + b3 / 64) / 4 = b2 := by omega
    have ha3 : ((b2 % 16) * 4 + b3 / 64) % 4 * 64 + b3 % 64 = b3 := by omega
    simp [ha1, ha2, ha3]

theorem dropLit_length :
    ∀ {lit s r : List Char}, dropLit lit s = some r →
      s.length = lit.length + r.length := by
  intro lit
  induction lit with
  | nil =>
    intro s r h
    simp only [dropLit, Option.some.injEq] at h
    simp [← h]
  | cons c cs ih =>
    intro s r h
    cases s with
    | nil => simp [dropLit] at h
    | cons x xs =>
      simp only [dropLit] at h
      split at h
      · have := ih h
        simp only [List.length_cons]
        omega
      · exact absurd h (by simp)

theorem matchCloseTail_length {s fmt dat : List Char} {len : Nat}
    (h : matchCloseTail s = some (fmt, dat, len)) :
    0 < len ∧ len ≤ s.length := by
  unfold matchCloseTail at h
  cases s with
  | nil => exact absurd h (by simp)
  | cons c0 rest =>
    dsimp only [] at h
    by_cases hc0 : c0 = ']'
    case neg => rw [if_neg hc0] at h; exact absurd h (by simp)
    rw [if_pos hc0] at h
    cases h1 : dropLit "(data:image/".data rest with
    | none => rw [h1] at h; exact absurd h (by simp)
    | some r1 =>
      rw [h1] at h
      dsimp only [] at h
      by_cases hf : (r1.takeWhile isWordChar).isEmpty
      case pos => rw [if_pos hf] at h; exact absurd h (by simp)
      rw [if_neg hf] at h
      cases h2 : dropLit ";base64,".data (r1.dropWhile isWordChar) with
      | none => rw [h2] at h; exact absurd h (by simp)
      | some r3 =>
        rw [h2] at h
        dsimp only [] at h
        by_cases hd : (r3.takeWhile isB64Char).isEmpty
        case pos => rw [if_pos hd] at h; exact absurd h (by simp)
        rw [if_neg hd] at h
        cases h3 : r3.dropWhile isB64Char with
        | nil => rw [h3] at h; exact absurd h (by simp)
        | cons c4 r4 =>
          rw [h3] at h
          dsimp only [] at h
          by_cases hc4 : c4 = ')'
          case neg => rw [if_neg hc4] at h; exact absurd h (by simp)
          rw [if_pos hc4] at h
          simp only [Option.some.injEq, Prod.mk.injEq] at h
          obtain ⟨-, -, hlen⟩ := h
          have e1 := dropLit_length h1
          have e2 := dropLit_length h2
          have e3 : (r1.takeWhile isWordChar).length
              + (r1.dropWhile isWordChar).length = r1.length := by
            rw [← List.length_append, List.takeWhile_append_dropWhile]
          have e4 : (r3.takeWhile isB64Char).length
              + (r3.dropWhile isB64Char).length = r3.length := by
            rw [← List.length_append, List.takeWhile_append_dropWhile]
          rw [h3] at e4
          simp only [List.length_cons] at e1 e2 e3 e4 ⊢
          omega

theorem findAlt_length :
    ∀ {s alt fmt dat : List Char} {len : Nat},
      findAlt s = some (alt, fmt, dat, len) → 0 < len ∧ len ≤ s.length := by
  intro s
  induction s with
  | nil =>
    intro alt fmt dat len h
    simp [findAlt, matchCloseTail] at h
  | cons c rest ih =>
    intro alt fmt dat len h
    unfold findAlt at h
    cases h1 : matchCloseTail (c :: rest) with
    | some tri =>
      obtain ⟨fmt', dat', len'⟩ := tri
      rw [h1] at h
      dsimp only [] at h
      simp only [Option.some.injEq, Prod.mk.injEq] at h
      obtain ⟨-, -, -, hlen⟩ := h
      subst hlen
      exact matchCloseTail_length h1
    | none =>
      rw [h1] at h
      dsimp only [] at h
      split at h
      · exact absurd h (by simp)
      · cases h2 : findAlt rest with
        | none => rw [h2] at h; exact absurd h (by simp)
        | some quad =>
          obtain ⟨alt', fmt', dat', len'⟩ := quad
          rw [h2] at h
          dsimp only [] at h
          simp only [Option.some.injEq, Prod.mk.injEq] at h
          obtain ⟨-, -, -, hlen⟩ := h
          subst hlen
          have := ih h2
          simp only [List.length_cons]
          omega

theorem matchAt_length {t alt fmt dat : List Char} {len : Nat}
    (h : matchAt t = some (alt, fmt, dat, len)) :
    0 < len ∧ len ≤ t.length := by
  unfold matchAt at h
  cases t with
  | nil => exact absurd h (by simp)
  | cons c1 t2 =>
    cases t2 with
    | nil => exact absurd h (by simp)
    | cons c2 rest =>
      dsimp only [] at h
      split at h
      · cases h2 : findAlt rest with
        | none => rw [h2] at h; exact absurd h (by simp)
        | some quad =>
          obtain ⟨alt', fmt', dat', len'⟩ := quad
          rw [h2] at h
          dsimp only [] at h
          simp only [Option.some.injEq, Prod.mk.injEq] at h
          obtain ⟨-, -, -, hlen⟩ := h
          subst hlen
          have := findAlt_length h2
          simp only [List.length_cons]
          omega
      · exact absurd h (by simp)

theorem SpansFrom_mono {L : Nat} :
    ∀ {ms : List DataUrlMatch} {c c' : Nat}, SpansFrom L c ms → c' ≤ c →
      SpansFrom L c' ms := by
  intro ms
  cases ms with
  | nil => intro c c' _ _; trivial
  | cons m rest =>
    intro c c' h hle
    obtain ⟨h1, h2, h3, h4⟩ := h
    exact ⟨le_trans hle h1, h2, h3, h4⟩

theorem finditerGo_spans :
    ∀ (fuel : Nat) (t : List Char) (i : Nat),
      SpansFrom (i + t.length) i (finditerGo fuel t i) := by
  intro fuel
  induction fuel with
  | zero =>
    intro t i
    trivial
  | succ f ih =>
    intro t i
    rw [show finditerGo (f + 1) t i = finditerStep t i (finditerGo f) from rfl]
    unfold finditerStep
    cases hm : matchAt t with
    | some quad =>
      obtain ⟨alt, fmt, dat, len⟩ := quad
      obtain ⟨hpos, hle⟩ := matchAt_length hm
      refine ⟨le_rfl, by dsimp only []; omega, by dsimp only []; omega, ?_⟩
      show SpansFrom (i + t.length) (i + len) _
      have := ih (t.drop len) (i + len)
      rwa [List.length_drop, show i + len + (t.length - len) = i + t.length
        from by omega] at this
    | none =>
      cases t with
      | nil => trivial
      | cons c rest =>
        have := ih rest (i + 1)
        rw [List.length_cons]
        rw [show i + 1 + rest.length = i + (rest.length + 1) from by omega]
          at this
        exact SpansFrom_mono this (by omega)

theorem finditer_spans (s : List Char) :
    SpansFrom s.length 0 (finditer s) := by
  have := finditerGo_spans (s.length + 1) s 0
  simpa using this

theorem pyIdx_ofNat {n len : Nat} (h : n ≤ len) : pyIdx (n : Int) len = n := by
  unfold pyIdx
  rw [if_neg (by omega : ¬((n : Int) < 0))]
  rw [Int.toNat_ofNat, Nat.min_eq_left h]

theorem seg_length {s : List Char} {a b : Nat} (hab : a ≤ b)
    (hb : b ≤ s.length) : (seg s a b).length = b - a := by
  unfold seg
  simp only [List.length_take, List.length_drop]
  omega

theorem processMatch_skip (pageNum : Nat) (subdir : String)
    (st : ExtractState) (m : DataUrlMatch)
    (h : b64decodePy m.data = none) :
    processMatch pageNum subdir st m = st := by
  unfold processMatch
  rw [h]

theorem processMatch_save (pageNum : Nat) (subdir : String) (s : List Char)
    (pre : List Char) (cur : Nat) (saved : List (String × List Nat))
    (m : DataUrlMatch) (bytes : List Nat)
    (hdec : b64decodePy m.data = some bytes)
    (h1 : cur ≤ m.start) (h2 : m.start ≤ m.stop) (h3 : m.stop ≤ s.length) :
    processMatch pageNum subdir
        ⟨pre ++ s.drop cur, (pre.length : Int) - cur, saved⟩ m =
      ⟨(pre ++ seg s cur m.start
          ++ inlineReplacement pageNum subdir (saved.length + 1) m)
          ++ s.drop m.stop,
        ((pre ++ seg s cur m.start
          ++ inlineReplacement pageNum subdir (saved.length + 1) m).length
            : Int) - m.stop,
        saved ++ [(imageFileName pageNum (saved.length + 1) m.fmt, bytes)]⟩ := by
  unfold processMatch
  rw [hdec]
  dsimp only []
  have hidx1 : (m.start : Int) + ((pre.length : Int) - cur)
      = ((pre.length + (m.start - cur) : Nat) : Int) := by push_cast; omega
  have hidx2 : (m.stop : Int) + ((pre.length : Int) - cur)
      = ((pre.length + (m.stop - cur) : Nat) : Int) := by push_cast; omega
  have hlen : (pre ++ s.drop cur).length = pre.length + (s.length - cur) := by
    simp [List.length_append, List.length_drop]
  have hb1 : pre.length + (m.start - cur) ≤ (pre ++ s.drop cur).length := by
    rw [hlen]; omega
  have hb2 : pre.length + (m.stop - cur) ≤ (pre ++ s.drop cur).length := by
    rw [hlen]; omega
  have htake : pySliceTake (pre ++ s.drop cur)
      ((m.start : Int) + ((pre.length : Int) - cur))
      = pre ++ seg s cur m.start := by
    unfold pySliceTake
    rw [hidx1, pyIdx_ofNat hb1, List.take_append]
    rfl
  have hdrop : pySliceDrop (pre ++ s.drop cur)
      ((m.stop : Int) + ((pre.length : Int) - cur)) = s.drop m.stop := by
    unfold pySliceDrop
    rw [hidx2, pyIdx_ofNat hb2, List.drop_append, List.drop_drop]
    rw [show cur + (m.stop - cur) = m.stop from by omega]
  rw [htake, hdrop]
  congr 1
  simp only [List.length_append, seg_length h1 (le_trans h2 h3)]
  push_cast
  omega

theorem rewrittenSpec_skip {pageNum : Nat} {subdir : String} {s : List Char}
    {cur count : Nat} {m : DataUrlMatch} {rest : List DataUrlMatch}
    (h : b64decodePy m.data = none) :
    rewrittenSpec pageNum subdir s cur count (m :: rest) =
      rewrittenSpec pageNum subdir s cur count rest := by
  show (match b64decodePy m.data with
    | none => rewrittenSpec pageNum subdir s cur count rest
    | some _ =>
      seg s cur m.start ++ inlineReplacement pageNum subdir (count + 1) m
        ++ rewrittenSpec pageNum subdir s m.stop (count + 1) rest) = _
  rw [h]

theorem rewrittenSpec_save {pageNum : Nat} {subdir : String} {s : List Char}
    {cur count : Nat} {m : DataUrlMatch} {rest : List DataUrlMatch}
    {bytes : List Nat} (h : b64decodePy m.data = some bytes) :
    rewrittenSpec pageNum subdir s cur count (m :: rest) =
      seg s cur m.start ++ inlineReplacement pageNum subdir (count + 1) m
        ++ rewrittenSpec pageNum subdir s m.stop (count + 1) rest := by
  show (match b64decodePy m.data with
    | none => rewrittenSpec pageNum subdir s cur count rest
    | some _ =>
      seg s cur m.start ++ inlineReplacement pageNum subdir (count + 1) m
        ++ rewrittenSpec pageNum subdir s m.stop (count + 1) rest) = _
  rw [h]

theorem filesSpec_skip {pageNum count : Nat} {m : DataUrlMatch}
    {rest : List DataUrlMatch} (h : b64decodePy m.data = none) :
    filesSpec pageNum count (m :: rest) = filesSpec pageNum count rest := by
  show (match b64decodePy m.data with
    | none => filesSpec pageNum count rest
    | some bytes =>
      (imageFileName pageNum (count + 1) m.fmt, bytes)
        :: filesSpec pageNum (count + 1) rest) = _
  rw [h]

theorem filesSpec_save {pageNum count : Nat} {m : DataUrlMatch}
    {rest : List DataUrlMatch} {bytes : List Nat}
    (h : b64decodePy m.data = some bytes) :
    filesSpec pageNum count (m :: rest) =
      (imageFileName pageNum (count + 1) m.fmt, bytes)
        :: filesSpec pageNum (count + 1) rest := by
  show (match b64decodePy m.data with
    | none => filesSpec pageNum count rest
    | some bytes =>
      (imageFileName pageNum (count + 1) m.fmt, bytes)
        :: filesSpec pageNum (count + 1) rest) = _
  rw [h]

theorem extract_fold (pageNum : Nat) (subdir : String) (s : List Char) :
    ∀ (ms : List DataUrlMatch) (pre : List Char) (cur : Nat)
      (saved : List (String × List Nat)),
      SpansFrom s.length cur ms →
      ((ms.foldl (processMatch pageNum subdir)
          ⟨pre ++ s.drop cur, (pre.length : Int) - cur, saved⟩).processed =
        pre ++ rewrittenSpec pageNum subdir s cur saved.length ms) ∧
      ((ms.foldl (processMatch pageNum subdir)
          ⟨pre ++ s.drop cur, (pre.length : Int) - cur, saved⟩).saved =
        saved ++ filesSpec pageNum saved.length ms) := by
  intro ms
  induction ms with
  | nil =>
    intro pre cur saved _
    constructor
    · show pre ++ s.drop cur = pre ++ rewrittenSpec pageNum subdir s cur
        saved.length []
      rfl
    · show saved = saved ++ filesSpec pageNum saved.length []
      simp [filesSpec]
  | cons m rest ih =>
    intro pre cur saved hsp
    obtain ⟨h1, h2, h3, hsp2⟩ := hsp
    rw [List.foldl_cons]
    cases hdec : b64decodePy m.data with
    | none =>
      rw [processMatch_skip pageNum subdir _ m hdec,
        rewrittenSpec_skip hdec, filesSpec_skip hdec]
      exact ih pre cur saved (SpansFrom_mono hsp2 (le_trans h1 h2))
    | some bytes =>
      rw [processMatch_save pageNum subdir s pre cur saved m bytes hdec h1 h2
        h3]
      rw [rewrittenSpec_save hdec, filesSpec_save hdec]
      have hih := ih
        (pre ++ seg s cur m.start
          ++ inlineReplacement pageNum subdir (saved.length + 1) m)
        m.stop
        (saved ++ [(imageFileName pageNum (saved.length + 1) m.fmt, bytes)])
        hsp2
      have hcnt : (saved
          ++ [(imageFileName pageNum (saved.length + 1) m.fmt, bytes)]).length
          = saved.length + 1 := by simp
      rw [hcnt] at hih
      constructor
      · rw [hih.1]
        simp [List.append_assoc]
      · rw [hih.2]
        simp [List.append_assoc]

/-- C3: the inline-image extractor is a round-trip with respect to data-URL
embedding.  For every Markdown string and page number: (1) the rewritten
Markdown is the original text with exactly each successfully decoded
regex-match span replaced, left to right with the running length-delta, by
`![alt](images/page_<p>_img_<n>.<fmt>)` (alt text preserved verbatim,
`<n>` counting only saved images) and all text outside the match spans
unchanged; (2) the bytes written for each such match are exactly the
base64 decoding of its data group; (3) decoding a canonical base64
encoding recovers the bytes exactly, so an embedded image round-trips
byte-identically. -/
theorem extract_and_save_images_spec (subdir : String) (markdown : List Char)
    (pageNum : Nat) :
    (extract_and_save_images subdir markdown pageNum).1 =
      rewrittenSpec pageNum subdir markdown 0 0 (finditer markdown) ∧
    (extract_and_save_images subdir markdown pageNum).2 =
      filesSpec pageNum 0 (finditer markdown) ∧
    ∀ bs : List Nat, (∀ b ∈ bs, b < 256) →
      b64decodePy (b64encode bs) = some bs := by
  have h := extract_fold pageNum subdir markdown (finditer markdown) [] 0 []
    (finditer_spans markdown)
  simp only [List.nil_append, List.drop_zero, List.length_nil,
    Nat.cast_zero, Nat.cast_ofNat, CharP.cast_eq_zero, zero_sub, neg_zero]
    at h
  exact ⟨h.1, h.2, fun bs hb => b64decode_encode bs hb⟩

/-- Witness for C3: the first reference is decoded, saved as
`page_2_img_1.png` holding exactly `b"ABC"`, and rewritten to the relative
path with its alt text intact; the second, pad-interspersed payload also
decodes (to the bytes 65, 0, 1, as CPython does) and is saved and
rewritten; the third fails to decode and is left untouched without
aborting; and a concrete byte round-trip. -/
theorem extract_and_save_images_spec_witness :
    (extract_and_save_images "images" demoMarkdown.data 2).1 =
      "A ![x](images/page_2_img_1.png) B ![y](images/page_2_img_2.jpeg) C ![z](data:image/gif;base64,QQ=) D".data ∧
    (extract_and_save_images "images" demoMarkdown.data 2).2 =
      [("page_2_img_1.png", [65, 66, 67]), ("page_2_img_2.jpeg", [65, 0, 1])] ∧
    b64decodePy (b64encode [255, 0, 16]) = some [255, 0, 16] := by
  obtain ⟨ha, hb, hc⟩ := extract_and_save_images_spec "images"
    demoMarkdown.data 2
  exact ⟨ha.trans (by decide), hb.trans (by decide),
    hc [255, 0, 16] (by decide)⟩

theorem pyJoin_cons_cons (sep x y : String) (ys : List String) :
    pyJoin sep (x :: y :: ys) = x ++ sep ++ pyJoin sep (y :: ys) := rfl

theorem pyJoin_cons_append (sep x : String) (ls : List String) (a : String) :
    pyJoin sep (x :: (ls ++ [a])) = x ++ sep ++ pyJoin sep (ls ++ [a]) := by
  cases ls with
  | nil => rfl
  | cons y ys => rfl

theorem pages_join (n : Nat) (rs : List String) :
    pyJoin "\n" (pageLines n rs ++ ["<!-- 文档结束 -->"]) =
      pagesBlockSpec n rs ++ "<!-- 文档结束 -->" := by
  induction rs generalizing n with
  | nil => rfl
  | cons r rs ih =>
    show pyJoin "\n" ((["## 第 " ++ toString n ++ " 页", "", "---", "", r,
      "", "---", ""] ++ pageLines (n + 1) rs) ++ ["<!-- 文档结束 -->"]) = _
    rw [List.append_assoc]
    simp only [List.cons_append, List.nil_append]
    simp only [pyJoin_cons_cons, pyJoin_cons_append]
    rw [ih]
    rw [show pagesBlockSpec n (r :: rs)
      = "## 第 " ++ toString n ++ " 页" ++ "\n\n---\n\n" ++ r
        ++ "\n\n---\n\n" ++ pagesBlockSpec (n + 1) rs from rfl]
    apply String.ext
    simp only [String.data_append, List.append_assoc,
      show ("\n" : String).data = ['\n'] from rfl,
      show ("" : String).data = [] from rfl,
      show ("---" : String).data = ['-', '-', '-'] from rfl,
      show ("\n\n---\n\n" : String).data
        = ['\n', '\n', '-', '-', '-', '\n', '\n'] from rfl,
      List.cons_append, List.nil_append]

/-- C5: for every list of per-page OCR results and every metadata mapping
holding a string `source` and an integer `page_count`, the built Markdown
document is exactly the title line, the blockquote metadata block
(attribution, source filename, page count, timestamp) followed by a
horizontal rule, one `## 第 N 页` section per page in input order with
rule-delimited body, and the closing marker; and when no output path is
given, `generate` writes to the configured output directory under the
source filename's stem with a `.md` extension. -/
theorem build_markdown_spec (results : List String) (md : Metadata)
    (now src : String) (pc : Int)
    (hsrc : metaFind md "source" = some (.s src))
    (hpc : metaFind md "page_count" = some (.i pc)) :
    build_markdown results (some md) now =
      assembledDocSpec (posixName src) pc now results ∧
    ∀ (outputDir : String) (extractImages : Bool) (imageSubdir : String),
      (generate outputDir extractImages imageSubdir results (some md) none
          now).1 = outputDir ++ "/" ++ posixStem src ++ ".md" := by
  have hmd : md ≠ [] := by
    intro h
    rw [h] at hsrc
    simp [metaFind] at hsrc
  have hni : md.isEmpty = false := by
    cases md with
    | nil => exact absurd rfl hmd
    | cons kv tl => rfl
  constructor
  · unfold build_markdown
    rw [show (match some md with
        | some md => if md.isEmpty then [] else metaLines md now
        | none => ([] : List String)) = metaLines md now from by
      dsimp only []
      rw [hni]
      simp]
    unfold metaLines
    rw [hsrc, hpc]
    dsimp only [MetaVal.display]
    rw [show (["# 文档", ""]
        ++ (["> 由 OCRByMe 生成"] ++ ["> 来源: " ++ posixName src]
          ++ ["> 页数: " ++ toString pc]
          ++ ["> 生成时间: " ++ now, "", "---", ""])
        ++ pageLines 1 results ++ ["<!-- 文档结束 -->"])
      = "# 文档" :: "" :: "> 由 OCRByMe 生成" :: ("> 来源: " ++ posixName src)
        :: ("> 页数: " ++ toString pc) :: ("> 生成时间: " ++ now) :: "" :: "---"
        :: "" :: (pageLines 1 results ++ ["<!-- 文档结束 -->"]) from by
      simp]
    simp only [pyJoin_cons_cons, pyJoin_cons_append]
    rw [pages_join]
    unfold assembledDocSpec
    apply String.ext
    simp only [String.data_append, List.append_assoc,
      show ("\n" : String).data = ['\n'] from rfl,
      show ("" : String).data = [] from rfl,
      show ("---" : String).data = ['-', '-', '-'] from rfl,
      show ("# 文档" : String).data = ['#', ' ', '文', '档'] from rfl,
      show ("> 由 OCRByMe 生成" : String).data
        = ['>', ' ', '由', ' ', 'O', 'C', 'R', 'B', 'y', 'M', 'e', ' ', '生',
           '成'] from rfl,
      show ("> 来源: " : String).data = ['>', ' ', '来', '源', ':', ' ']
        from rfl,
      show ("> 页数: " : String).data = ['>', ' ', '页', '数', ':', ' ']
        from rfl,
      show ("> 生成时间: " : String).data
        = ['>', ' ', '生', '成', '时', '间', ':', ' '] from rfl,
      show ("# 文档\n\n> 由 OCRByMe 生成\n> 来源: " : String).data
        = ['#', ' ', '文', '档', '\n', '\n', '>', ' ', '由', ' ', 'O', 'C',
           'R', 'B', 'y', 'M', 'e', ' ', '生', '成', '\n', '>', ' ', '来',
           '源', ':', ' '] from rfl,
      show ("\n> 页数: " : String).data
        = ['\n', '>', ' ', '页', '数', ':', ' '] from rfl,
      show ("\n> 生成时间: " : String).data
        = ['\n', '>', ' ', '生', '成', '时', '间', ':', ' '] from rfl,
      show ("\n\n---\n\n" : String).data
        = ['\n', '\n', '-', '-', '-', '\n', '\n'] from rfl,
      List.cons_append, List.nil_append]
  · intro outputDir extractImages imageSubdir
    show generateOutputPath outputDir (some md) none
      = outputDir ++ "/" ++ posixStem src ++ ".md"
    unfold generateOutputPath
    simp only [hni, hsrc, Bool.false_eq_true, if_false]
    rfl

/-- Witness for C5: a two-page document with concrete metadata and a fixed
timestamp. -/
theorem build_markdown_spec_witness :
    build_markdown ["P1", "P2"]
        (some [("source", .s "/tmp/docs/report.pdf"), ("page_count", .i 2)])
        "2026-01-01 00:00:00" =
      "# 文档\n\n> 由 OCRByMe 生成\n> 来源: report.pdf\n> 页数: 2\n> 生成时间: 2026-01-01 00:00:00\n\n---\n\n## 第 1 页\n\n---\n\nP1\n\n---\n\n## 第 2 页\n\n---\n\nP2\n\n---\n\n<!-- 文档结束 -->" ∧
    (generate "out" true "images" ["P1", "P2"]
        (some [("source", .s "/tmp/docs/report.pdf"), ("page_count", .i 2)])
        none "2026-01-01 00:00:00").1 = "out/report.md" := by
  obtain ⟨h1, h2⟩ := build_markdown_spec ["P1", "P2"]
    [("source", .s "/tmp/docs/report.pdf"), ("page_count", .i 2)]
    "2026-01-01 00:00:00" "/tmp/docs/report.pdf" 2 (by decide) (by decide)
  exact ⟨h1.trans (by decide), (h2 "out" true "images").trans (by decide)⟩

end OCRByMe
